import Mathlib

/-!
# Verification of the OpenBazaar DHT core (`node/dht.py`)

A shallow embedding of the Kademlia-style DHT implemented in `node/dht.py`,
together with proofs settling the frozen claims about it.

Conventions of the embedding:

* GUIDs and data-store keys are hexadecimal strings in the source; we keep them
  as `String` and interpret them numerically through `hexVal` where the XOR
  metric needs integers.
* Python tuples of mixed strings and integers (shortlist entries, contact
  tuples) are embedded as `List PyVal`.
* Transport URIs of the shape `tcp://host:port` are embedded as the `Uri`
  structure; `urlparse(u).hostname` and `urlparse(u).port` of the source are
  the projections `Uri.host` and `Uri.port`.
* The external collaborators that are not part of the source tree
  (`routingtable.py`, `datastore.py`, `constants.py`) are modelled from the
  spec; each such definition is marked `Modelled from the spec:`.
* Side effects (sending a wire message, requesting a peer upsert) are
  reified as values of the `Effect` inductive returned by the embedded
  functions, in the order the source emits them.
-/

namespace OBDHT

/-- A Python scalar appearing as a component of a peer/shortlist tuple:
either a string (ip, guid, nickname, pubkey) or an integer (port). -/
inductive PyVal where
  | s (v : String)
  | n (v : Nat)
deriving DecidableEq

/-- Value of a hexadecimal digit character; characters outside `[0-9a-fA-F]`
contribute 0 (the source only ever applies this to well-formed hex strings). -/
def hexDigitVal (c : Char) : Nat :=
  if 48 ≤ c.toNat ∧ c.toNat ≤ 57 then c.toNat - 48
  else if 97 ≤ c.toNat ∧ c.toNat ≤ 102 then c.toNat - 87
  else if 65 ≤ c.toNat ∧ c.toNat ≤ 70 then c.toNat - 55
  else 0

/-- Numeric value of a hexadecimal identifier string. -/
def hexVal (s : String) : Nat :=
  s.data.foldl (fun acc c => acc * 16 + hexDigitVal c) 0

/-- Modelled from the spec: `routingtable.py` is not under `src/`; the spec
defines the distance metric as XOR on the 160-bit identifiers
("Distance(a,b) = a XOR b"). -/
def distance (a b : String) : Nat :=
  Nat.xor (hexVal a) (hexVal b)

/-- A routing-table / peer contact: guid, transport URI, public key and
nickname (`Contact` of §3; `_guid`, `_address`, `_pub`, `_nickname` in the
source). The ip/port of a contact are the projections of its URI. -/
structure Uri where
  host : String
  port : Nat
deriving DecidableEq

structure Contact where
  guid : String
  address : Uri
  pub : String
  nickname : String
deriving DecidableEq

/-- Modelled from the spec: `constants.py` is not under `src/`; §6 lists the
constants `k` (bucket width), `alpha` (parallelism), `T_expire`
(`dataExpireTimeout`) and `T_replicate` (`replicateInterval`). -/
structure Constants where
  k : Nat
  alpha : Nat
  dataExpireTimeout : Int
  replicateInterval : Int

/-- `DHT.dedupe` (static method, `dht.py` lines 859-868): keeps the first item
of each `frozenset`-of-components class, dropping later items whose set of
components was already seen.  `seen` is the accumulated set of frozensets. -/
def dedupeAux {α : Type} [DecidableEq α] (seen : List (Finset α)) :
    List (List α) → List (List α)
  | [] => []
  | item :: rest =>
    if item.toFinset ∈ seen then dedupeAux seen rest
    else item :: dedupeAux (item.toFinset :: seen) rest

/-- `DHT.dedupe`: iterate over the list with an initially empty `seen` set. -/
def dedupe {α : Type} [DecidableEq α] (lst : List (List α)) : List (List α) :=
  dedupeAux [] lst


/-- Component `i` of a Python tuple embedded as a `List PyVal`, when it is a
string (out-of-range or wrongly-typed access defaults to `""`; the source only
indexes well-formed tuples). -/
def tupStr (e : List PyVal) (i : Nat) : String :=
  match e[i]? with
  | some (.s v) => v
  | _ => ""

/-- Component `i` of an embedded Python tuple, when it is an integer. -/
def tupNat (e : List PyVal) (i : Nat) : Nat :=
  match e[i]? with
  | some (.n v) => v
  | _ => 0

/-- Modelled from the spec: `routingtable.py` is not under `src/`; §4.1 gives
`get(guid) -> Contact?`.  The routing table is embedded as the list of its
contacts. -/
def getContact (rt : List Contact) (guid : String) : Option Contact :=
  rt.find? (fun c => c.guid == guid)

/-- The four recognized structured-index fields of a store payload
(`notary_index_add` / `notary_index_remove` / `keyword_index_add` /
`keyword_index_remove`). -/
structure IndexOps where
  notaryAdd : Option String := none
  notaryRemove : Option String := none
  keywordAdd : Option String := none
  keywordRemove : Option String := none
deriving DecidableEq

/-- A store payload / stored value.  A `str` payload carries the result of
`json.loads` on it: `some ops` when it decodes to a JSON object (with the
recognized index fields it contains), `none` when decoding raises.  The
`notariesDict` / `listingsDict` forms are the index objects
(`\x7bnotaries: [...]\x7d` / `\x7blistings: [...]\x7d`), and `opDict` is a
structured index-operation object received as an already-decoded dict.
`json.loads` applied to a non-string raises `TypeError`, hence `valueOps`
returns `none` on every non-`str` form. -/
inductive Value where
  | str (s : String) (parse : Option IndexOps)
  | notariesDict (notaries : List String)
  | listingsDict (listings : List String)
  | opDict (ops : IndexOps)
deriving DecidableEq

/-- Python truthiness of a payload: the empty string is falsy; the dict
payloads appearing in the system are non-empty, hence truthy. -/
def valueTruthy : Value → Bool
  | .str s _ => s ≠ ""
  | _ => true

/-- Result of `json.loads(value)` in `storeKeyValue`: succeeds exactly on
decodable strings. -/
def valueOps : Value → Option IndexOps
  | .str _ p => p
  | _ => none

/-- One record of the local data store: payload (possibly null) and the
metadata of §4.3 (`lastPublished`, `originallyPublished`,
`originalPublisherID`, `market_id`). -/
structure DSEntry where
  value : Option Value
  lastPublished : Int
  originallyPublished : Int
  originalPublisherID : String
  marketId : Nat
deriving DecidableEq

/-- Modelled from the spec: `datastore.py` is not under `src/`; §4.3 gives a
map keyed by hex keys with the per-key metadata.  Embedded as an association
list. -/
abbrev DataStore := List (String × DSEntry)

/-- Modelled from the spec: `datastore.setItem(key, value, now,
originallyPublished, originalPublisherID, market_id)` — `put` of §4.3,
replacing the record at `key` or creating it. -/
def setItem (ds : DataStore) (key : String) (v : Value)
    (now origPub : Int) (pubID : String) (market : Nat) : DataStore :=
  let entry : DSEntry := ⟨some v, now, origPub, pubID, market⟩
  if (List.find? (fun e => e.1 == key) ds).isSome then
    List.map (fun e => if e.1 == key then (key, entry) else e) ds
  else ds ++ [(key, entry)]

/-- `self._dataStore[key]` as used in `storeKeyValue`: the stored payload,
with a missing record and a stored null both read as `None`. -/
def dsGetItem (ds : DataStore) (key : String) : Option Value :=
  match List.find? (fun e => e.1 == key) ds with
  | some e => e.2.value
  | none => none

/-- `key in self._dataStore`. -/
def dsContains (ds : DataStore) (key : String) : Bool :=
  (List.find? (fun e => e.1 == key) ds).isSome

/-- An externally visible action emitted by the embedded functions, in source
order: a wire message handed to a peer, a handshake started for a freshly
created crypto peer, a peer upsert requested through `add_peer`, a k-bucket
touch, or the empty-shortlist callback of `_iterativeFind`. -/
inductive Effect where
  | sendStore (targetGuid key : String) (value : Value)
      (originalPublisherID : String) (age : Int)
  | startHandshake (guid : String) (uri : Uri)
  | sendFindNode (targetGuid key : String) (findValue : Bool) (findID : String)
  | peerUpsert (uri : Uri) (pubkey guid nickname : String)
  | touchKBucket (key : String)
  | callbackEmptyShortlist
deriving DecidableEq

/-- Whether an effect is an outbound `findNode` probe. -/
def Effect.isFindNode : Effect → Bool
  | .sendFindNode _ _ _ _ => true
  | _ => false

/-- One recognized index operation inside `storeKeyValue`'s `try` block,
evaluated against the currently stored payload at the key: it either assigns
a new `value`, raises (`KeyError`/`TypeError` from indexing a payload of the
wrong shape), or executes the bare `return` of the remove branches. -/
inductive BranchStep where
  | set (v : Value)
  | raise
  | ret

/-- The `notary_index_add` branch (`dht.py` 547-555). -/
def notaryAddStep (existing : Option Value) (a : String) : BranchStep :=
  match existing with
  | none => .set (.notariesDict [a])
  | some (.notariesDict ns) =>
      .set (.notariesDict (if a ∈ ns then ns else ns ++ [a]))
  | some _ => .raise

/-- The `notary_index_remove` branch (`dht.py` 557-566). -/
def notaryRemoveStep (existing : Option Value) (r : String) : BranchStep :=
  match existing with
  | none => .ret
  | some (.notariesDict ns) =>
      if r ∈ ns then .set (.notariesDict (ns.erase r)) else .ret
  | some _ => .raise

/-- The `keyword_index_add` branch (`dht.py` 569-584). -/
def keywordAddStep (existing : Option Value) (a : String) : BranchStep :=
  match existing with
  | none => .set (.listingsDict [a])
  | some (.listingsDict ls) =>
      .set (.listingsDict (if a ∈ ls then ls else ls ++ [a]))
  | some _ => .raise

/-- The `keyword_index_remove` branch (`dht.py` 586-600). -/
def keywordRemoveStep (existing : Option Value) (r : String) : BranchStep :=
  match existing with
  | none => .ret
  | some (.listingsDict ls) =>
      if r ∈ ls then .set (.listingsDict (ls.erase r)) else .ret
  | some _ => .raise

/-- The branches of the `try` block that fire for a decoded payload, in source
order.  Each branch re-reads `self._dataStore[key]`, which is still the
pre-call record since `setItem` only runs after the block. -/
def branchesOf (existing : Option Value) (ops : IndexOps) : List BranchStep :=
  (match ops.notaryAdd with
   | some a => [notaryAddStep existing a]
   | none => []) ++
  (match ops.notaryRemove with
   | some r => [notaryRemoveStep existing r]
   | none => []) ++
  (match ops.keywordAdd with
   | some a => [keywordAddStep existing a]
   | none => []) ++
  (match ops.keywordRemove with
   | some r => [keywordRemoveStep existing r]
   | none => [])

/-- Outcome of the `try` block: reach `setItem` with payload `v` (also on a
caught exception, which keeps the `value` assigned so far), or the bare
`return` that aborts `storeKeyValue` with no write and no sends. -/
inductive MergeOutcome where
  | proceed (v : Value)
  | earlyReturn
deriving DecidableEq

/-- Run the branches in order, tracking the current `value`: an exception is
caught by the `except` handler (keeping `value`), a `return` aborts. -/
def seqBranches (cur : Value) : List BranchStep → MergeOutcome
  | [] => .proceed cur
  | .set v :: rest => seqBranches v rest
  | .raise :: _ => .proceed cur
  | .ret :: _ => .earlyReturn

/-- The whole `try`/`except` prefix of `storeKeyValue` (`dht.py` 542-603):
a payload that does not decode is kept opaque; a decoded payload runs its
index branches against the existing record. -/
def storeKeyValueMerge (ds : DataStore) (key : String) (v : Value) :
    MergeOutcome :=
  match valueOps v with
  | none => .proceed v
  | some ops => seqBranches v (branchesOf (dsGetItem ds key) ops)

/-- The replica loop of `storeKeyValue` (`dht.py` 611-625): walk the node
tuples; on the local guid the loop `break`s; an unknown guid gets a fresh
crypto peer and a handshake; every reached node is sent
`proto_store(key, value, originalPublisherID, age)`. -/
def sendStores (rt : List Contact) (localGuid key : String) (v : Value)
    (pub : String) (age : Int) : List (List PyVal) → List Effect
  | [] => []
  | node :: rest =>
    let guid := tupStr node 2
    let uri : Uri := ⟨tupStr node 0, tupNat node 1⟩
    if guid == localGuid then []
    else
      (match getContact rt guid with
       | some _ => []
       | none => [Effect.startHandshake guid uri]) ++
      Effect.sendStore guid key v pub age ::
        sendStores rt localGuid key v pub age rest

/-- `DHT.storeKeyValue` (`dht.py` 538-625): apply the index merge, write the
resulting payload locally with `lastPublished = now`,
`originallyPublished = now - age`, then dispatch `store` replicas to the
given nodes.  Returns the updated store and the emitted effects. -/
def storeKeyValue (rt : List Contact) (localGuid : String) (marketId : Nat)
    (now : Int) (ds : DataStore) (nodes : List (List PyVal)) (key : String)
    (value : Value) (originalPublisherID : String) (age : Int) :
    DataStore × List Effect :=
  match storeKeyValueMerge ds key value with
  | .earlyReturn => (ds, [])
  | .proceed v =>
    let originallyPublished := now - age
    let ds' := setItem ds key v now originallyPublished originalPublisherID
        marketId
    (ds', sendStores rt localGuid key v originalPublisherID age nodes)

/-- The publisher defaulting of `iterativeStore` (`dht.py` 528-529):
`originalPublisherID = self._transport._guid` when the caller passed none. -/
def iterativeStorePublisher (localGuid : String) (pub : Option String) :
    String :=
  match pub with
  | some p => p
  | none => localGuid

/-- `DHT.iterativeStore` (`dht.py` 510-536), with the `iterativeFindNode`
round-trip compressed to its outcome: `nodes` is the closest-nodes list the
lookup hands to the callback.  A falsy `value_to_store` issues no lookup and
stores nothing. -/
def iterativeStore (rt : List Contact) (localGuid : String) (marketId : Nat)
    (now : Int) (ds : DataStore) (nodes : List (List PyVal)) (key : String)
    (value : Value) (pub : Option String) (age : Int) :
    DataStore × List Effect :=
  if valueTruthy value then
    storeKeyValue rt localGuid marketId now ds nodes key value
      (iterativeStorePublisher localGuid pub) age
  else (ds, [])

/-- An inbound `store` wire message (`\x7btype, key, value,
originalPublisherID, age\x7d`). -/
structure StoreMsg where
  key : String
  value : Value
  originalPublisherID : String
  age : Int

/-- `DHT._on_storeValue` (`dht.py` 627-642): the inbound `store` handler.
A truthy payload is written verbatim — no decoding and no index merge —
with `lastPublished = now` and `originallyPublished = now - age`; a falsy
payload is only logged. -/
def on_storeValue (marketId : Nat) (now : Int) (ds : DataStore)
    (msg : StoreMsg) : DataStore :=
  if valueTruthy msg.value then
    setItem ds msg.key msg.value now (now - msg.age) msg.originalPublisherID
      marketId
  else ds

/-- A Python exception escaping an embedded function. -/
inductive PyErr where
  | typeError
  | assertionError
deriving DecidableEq

/-- `DHT.store` (`dht.py` 644-682): the RPC-exposed local store.  With no
`originalPublisherID` and no `_rpcNodeID` in `kwargs` it raises `TypeError`;
otherwise it writes the record and returns `'OK'`. -/
def store (marketId : Nat) (now : Int) (ds : DataStore) (key : String)
    (value : Value) (originalPublisherID : Option String) (age : Int)
    (rpcNodeID : Option String) : Except PyErr (DataStore × String) :=
  match originalPublisherID with
  | some p => .ok (setItem ds key value now (now - age) p marketId, "OK")
  | none =>
    match rpcNodeID with
    | some r => .ok (setItem ds key value now (now - age) r marketId, "OK")
    | none => .error .typeError

/-- The rendered transport URI string of a contact, as it appears as a tuple
component (`contact._address`). -/
def uriString (u : Uri) : String :=
  "tcp://" ++ u.host ++ ":" ++ toString u.port

/-- Ordering used by `findCloseNodes`: ascending XOR distance to the target,
ties broken by guid (spec §4.1). -/
def closeLe (key : String) (a b : Contact) : Prop :=
  distance a.guid key < distance b.guid key ∨
    (distance a.guid key = distance b.guid key ∧ hexVal a.guid ≤ hexVal b.guid)

instance (key : String) : DecidableRel (closeLe key) := fun a b => by
  unfold closeLe; infer_instance

/-- Modelled from the spec: `routingtable.py` is not under `src/`; §4.1 gives
`findCloseNodes(targetKey, n, excludingGuid)`: up to `n` contacts in ascending
XOR distance to the target, ties broken by guid, excluding `excludingGuid`. -/
def findCloseNodes (rt : List Contact) (key : String) (n : Nat)
    (exclude : String) : List Contact :=
  (List.insertionSort (closeLe key)
    (List.filter (fun c => c.guid ≠ exclude) rt)).take n

/-- `DHT.close_nodes` (`dht.py` 251-257): the k closest contacts to `key`
excluding the sender `guid`, as (guid, address, pubkey, nickname) tuples,
deduplicated. -/
def close_nodes (cs : Constants) (rt : List Contact) (key guid : String) :
    List (List PyVal) :=
  dedupe (List.map
    (fun c => [PyVal.s c.guid, PyVal.s (uriString c.address),
               PyVal.s c.pub, PyVal.s c.nickname])
    (findCloseNodes rt key cs.k guid))

/-- An inbound `findNode` wire message; the required fields are `Option`s so
that a missing (or null) field can be represented (`msg['findValue']` is
accessed only after the asserts, so it is kept total). -/
structure FindNodeMsg where
  senderGUID : Option String
  key : Option String
  findID : Option String
  uri : Option Uri
  pubkey : Option String
  findValue : Bool

/-- The reply sent by `on_find_node` (all variants also carry the local
node's identity fields, which we omit as constants of the node). -/
inductive FindNodeReply where
  | foundKey (v : Value) (findID : String)
  | foundNode (guid : String) (address : Uri) (pub : String) (findID : String)
  | foundNodes (contacts : List (List PyVal)) (findID : String)
deriving DecidableEq

/-- The address refresh at the end of `on_find_node` (`dht.py` 246-249): a
known sender whose address changed is removed and re-added with the new
address (`removeContact` + `addContact`; modelled from the spec for the
routing-table side since `routingtable.py` is not under `src/`). -/
def rtRefresh (rt : List Contact) (peer : Contact) (uri : Uri) :
    List Contact :=
  if peer.address ≠ uri then
    List.filter (fun c => c.guid ≠ peer.guid) rt ++ [{ peer with address := uri }]
  else rt

/-- `DHT.on_find_node` (`dht.py` 155-249).  A missing required field raises
`KeyError` at the field reads (172-176) and a null field or a sender equal
to the local node fails an `assert` (179-183); both are embedded as
`.error .assertionError`, and in the source both fire before any reply is
sent or any state is touched.  For a known sender the reply is `foundKey` /
`foundNode` / `foundNodes` as the source chooses it; an unknown sender gets
no reply.  The second component of the result is the routing table after
the final address refresh. -/
def on_find_node (cs : Constants) (localGuid : String) (rt : List Contact)
    (ds : DataStore) (msg : FindNodeMsg) :
    Except PyErr (Option FindNodeReply × List Contact) :=
  match msg.senderGUID with
  | none => .error .assertionError
  | some guid =>
  match msg.key with
  | none => .error .assertionError
  | some key =>
  match msg.findID with
  | none => .error .assertionError
  | some findID =>
  match msg.uri with
  | none => .error .assertionError
  | some uri =>
  match msg.pubkey with
  | none => .error .assertionError
  | some _ =>
  if guid = localGuid then .error .assertionError
  else
    match getContact rt guid with
    | none => .ok (none, rt)
    | some peer =>
      let reply :=
        if msg.findValue then
          if dsContains ds key ∧ (dsGetItem ds key).isSome then
            match dsGetItem ds key with
            | some v => FindNodeReply.foundKey v findID
            | none => FindNodeReply.foundNodes (close_nodes cs rt key guid)
                findID
          else FindNodeReply.foundNodes (close_nodes cs rt key guid) findID
        else
          match getContact rt key with
          | some fc => FindNodeReply.foundNode fc.guid fc.address fc.pub
              findID
          | none => FindNodeReply.foundNodes (close_nodes cs rt key guid)
              findID
      .ok (some reply, rtRefresh rt peer uri)

/-- Lowercase hex digit character. -/
def hexChar (n : Nat) : Char :=
  if n < 10 then Char.ofNat (48 + n) else Char.ofNat (87 + n)

/-- `key.encode('hex')` of Python 2 (`dht.py` 405): each byte becomes two
lowercase hex digits. -/
def hexEncode (s : String) : String :=
  String.join (s.data.map (fun c =>
    String.mk [hexChar ((c.toNat % 256) / 16), hexChar (c.toNat % 16)]))

/-- Modelled from the spec: the per-key metadata accessors of the external
data store (`datastore.py` is not under `src/`; §4.3 and §6 list
`original_publisher`, `originally_published_at`, `last_published_at` and
map-like access).  The sweep consults them through this oracle. -/
structure SweepOracle where
  originalPublisherID : String → String
  originalPublishTime : String → Int
  lastPublished : String → Int
  getValue : String → Option Value

/-- One action of the republish sweep for one key: re-store an owned record
(`iterativeStore(key, value)`), re-replicate a foreign one
(`iterativeStore(key, value, originalPublisherID, age)`), or mark it
expired. -/
inductive SweepStep where
  | republish (key : String) (value : Option Value)
  | replicate (key : String) (value : Option Value) (pub : String) (age : Int)
  | expire (key : String)
deriving DecidableEq

/-- The per-key body of `DHT._threadedRepublishData` (`dht.py` 398-424):
`nodeState` is filtered out; the key is hex-encoded before the metadata
reads; `age` is `now` minus the original publish time **plus 500000**; an
owned record is re-stored when `age >= dataExpireTimeout`, a foreign one is
expired at the same threshold and otherwise re-replicated when
`now - lastPublished >= replicateInterval`. -/
def republishKeyStep (cs : Constants) (guid : String) (now : Int)
    (o : SweepOracle) (key : String) : Option SweepStep :=
  if key = "nodeState" then none
  else
    let k := hexEncode key
    let originalPublisherID := o.originalPublisherID k
    let age : Int := now - o.originalPublishTime k + 500000
    if originalPublisherID = guid then
      if age ≥ cs.dataExpireTimeout then some (.republish k (o.getValue k))
      else none
    else
      if age ≥ cs.dataExpireTimeout then some (.expire k)
      else if now - o.lastPublished k ≥ cs.replicateInterval then
        some (.replicate k (o.getValue k) originalPublisherID age)
      else none

/-- `DHT._threadedRepublishData` (`dht.py` 389-427): sweep all stored keys;
the first component lists the actions in key order, the second the keys
collected in `expiredKeys` and deleted after the scan. -/
def threadedRepublishData (cs : Constants) (guid : String) (now : Int)
    (o : SweepOracle) (keys : List String) :
    List SweepStep × List String :=
  let steps := keys.filterMap (republishKeyStep cs guid now o)
  (steps, steps.filterMap (fun s =>
    match s with
    | .expire k => some k
    | _ => none))

/-- A `DHTSearch` object (`dht.py` 871-891).  The `callback` is embedded as
the flag `hasCallback`; `_slowNodeCount` is the single cell of the source's
one-element list; `_findID` is the random id handed in at creation. -/
structure Search where
  key : String
  call : String
  hasCallback : Bool
  shortlist : List (List PyVal)
  activeProbes : List (List PyVal)
  alreadyContacted : List (List PyVal)
  previousClosest : Option (List PyVal)
  slowNodeCount : Nat
  contactedNow : Nat
  prevShortlistLength : Nat
  findID : String
deriving DecidableEq

/-- `DHTSearch.__init__`: all collections empty, `_contactedNow = 0`. -/
def DHTSearch_init (key call : String) (hasCallback : Bool)
    (findID : String) : Search :=
  { key := key, call := call, hasCallback := hasCallback, shortlist := [],
    activeProbes := [], alreadyContacted := [], previousClosest := none,
    slowNodeCount := 0, contactedNow := 0, prevShortlistLength := 0,
    findID := findID }

/-- `DHTSearch.add_to_shortlist` (`dht.py` 893-900): append each addition not
already present. -/
def add_to_shortlist (s : Search) (additions : List (List PyVal)) : Search :=
  additions.foldl
    (fun s item =>
      if item ∈ s.shortlist then s
      else { s with shortlist := s.shortlist ++ [item] })
    s

/-- `DHT.activeSearchExists` (`dht.py` 845-852). -/
def activeSearchExists (searches : List Search) (findID : String) : Bool :=
  searches.any (fun s => s.findID == findID)

/-- A node tuple `(guid, uri, pubkey, nickname)` handed to
`extendShortlist`. -/
structure FoundNode where
  guid : String
  uri : Uri
  pubkey : String
  nick : String
deriving DecidableEq

/-- The `(ip, port, guid, nickname)` shortlist tuple built from a found
node (`dht.py` 447-453, with ip/port the `urlparse` projections of the
node's uri). -/
def foundNodeTuple (node : FoundNode) : List PyVal :=
  [.s node.uri.host, .n node.uri.port, .s node.guid, .s node.nick]

/-- The per-node loop of `extendShortlist` (`dht.py` 445-466): append the
`(ip, port, guid, nickname)` tuple to the shortlist when absent, then — only
for a guid different from the local one — request the peer upsert
(`add_peer`). -/
def extendOne (localGuid : String) (search : Search) :
    List FoundNode → Search × List Effect
  | [] => (search, [])
  | node :: rest =>
    let tup := foundNodeTuple node
    let search₁ :=
      if tup ∈ search.shortlist then search else add_to_shortlist search [tup]
    let effs : List Effect :=
      if node.guid = localGuid then []
      else [Effect.peerUpsert node.uri node.pubkey node.guid node.nick]
    let r := extendOne localGuid search₁ rest
    (r.1, effs ++ r.2)

/-- `DHT.extendShortlist` (`dht.py` 429-468): locate the search for `findID`
(the source keeps the last match; find ids are unique) and run the per-node
loop on it; with no matching search nothing happens. -/
def extendShortlist (localGuid : String) (searches : List Search)
    (findID : String) (foundNodes : List FoundNode) :
    List Search × List Effect :=
  match (List.filter (fun s => s.findID == findID) searches).getLast? with
  | none => (searches, [])
  | some search =>
    let r := extendOne localGuid search foundNodes
    (List.map (fun s => if s.findID == findID then r.1 else s) searches, r.2)

/-- Sort order of the active-peers list inside `_searchIteration`: ascending
XOR distance of the peer's guid to the search key (a stable sort, like
CPython's). -/
def peerDistLe (key : String) (a b : Contact) : Prop :=
  distance a.guid key ≤ distance b.guid key

instance (key : String) : DecidableRel (peerDistLe key) := fun a b => by
  unfold peerDistLe; infer_instance

/-- Sort order of the shortlist inside `_searchIteration`: ascending XOR
distance of `node[2]` to the search key. -/
def tupDistLe (key : String) (a b : List PyVal) : Prop :=
  distance (tupStr a 2) key ≤ distance (tupStr b 2) key

instance (key : String) : DecidableRel (tupDistLe key) := fun a b => by
  unfold tupDistLe; infer_instance

/-- The body of the probe loop for one shortlist node (`dht.py` 817-840):
a node not yet contacted and different from the local node is appended to
`_active_probes` and `_already_contacted`; if its guid resolves in the
routing table a `findNode` is sent and `_contactedNow` is incremented. -/
def sendLoopStep (localGuid : String) (rt : List Contact) (key : String)
    (findValue : Bool) (findID : String) (s : Search) (node : List PyVal) :
    Search × List Effect :=
  if node ∉ s.alreadyContacted ∧ tupStr node 2 ≠ localGuid then
    let s₁ := { s with activeProbes := s.activeProbes ++ [node],
                       alreadyContacted := s.alreadyContacted ++ [node] }
    match getContact rt (tupStr node 2) with
    | some c => ({ s₁ with contactedNow := s₁.contactedNow + 1 },
        [Effect.sendFindNode c.guid key findValue findID])
    | none => (s₁, [])
  else (s, [])

def sendLoop (cs : Constants) (localGuid : String) (rt : List Contact)
    (key : String) (findValue : Bool) (findID : String) :
    List (List PyVal) → Search → Search × List Effect
  | [], s => (s, [])
  | node :: rest, s =>
    let step := sendLoopStep localGuid rt key findValue findID s node
    if step.1.contactedNow = cs.alpha then step
    else
      let r := sendLoop cs localGuid rt key findValue findID rest step.1
      (r.1, step.2 ++ r.2)

/-- The state-preparation prefix of `_searchIteration` (`dht.py` 758-808):
update `_slowNodeCount`, record the previous closest node from the sorted
active peers, and — when the shortlist holds more than one entry — dedupe
it, sort it by distance to the key, and record its length. -/
def searchIterationPrep (key : String) (peers' : List Contact) (s : Search) :
    Search :=
  let s₀ := { s with slowNodeCount := s.activeProbes.length }
  let s₁ : Search :=
    match peers'.head? with
    | some p =>
      let tup : List PyVal := [.s p.address.host, .n p.address.port, .s p.guid]
      { s₀ with previousClosest := some tup }
    | none => s₀
  if s₁.shortlist.length > 1 then
    let sl := List.insertionSort (tupDistLe key) (dedupe s₁.shortlist)
    { s₁ with shortlist := sl, prevShortlistLength := sl.length }
  else s₁

/-- `DHT._searchIteration` (`dht.py` 758-843): sort the active peers by
distance to the key, run the preparation prefix, stop if the search was
cancelled (the sweep loop `break`s when `_contactedNow == alpha`), then run
the probe loop.  Returns the mutated search, the sorted active-peers list
and the emitted effects. -/
def searchIteration (cs : Constants) (localGuid : String) (rt : List Contact)
    (activePeers : List Contact) (searches : List Search) (s : Search)
    (findValue : Bool) : Search × List Contact × List Effect :=
  let peers' := List.insertionSort (peerDistLe s.key) activePeers
  let s₂ := searchIterationPrep s.key peers' s
  if ¬ activeSearchExists searches s.findID then (s₂, peers', [])
  else
    let r := sendLoop cs localGuid rt s₂.key findValue s₂.findID s₂.shortlist
        s₂
    (r.1, peers', r.2)

/-- Observable outcome of `_iterativeFind`: the `'You are looking for
yourself'` early return, the active-peer early return, the bare `return []`
of an empty shortlist without callback, or a run of `_searchIteration` with
its effects. -/
inductive IterFindOutcome where
  | lookingForYourself
  | foundActivePeer (c : Contact)
  | emptyNoCallback
  | ran (effects : List Effect)
deriving DecidableEq

/-- The DHT instance state touched by `_iterativeFind`. -/
structure DHTState where
  guid : String
  searches : List Search
  activePeers : List Contact
  routingTable : List Contact
deriving DecidableEq

/-- `DHT._iterativeFind` (`dht.py` 701-756) with the fresh random `findID`
supplied by the environment.  The new search is appended to `_searches`
first; then come the looking-for-yourself abort and the active-peer
shortcut, neither of which removes it.  Otherwise the shortlist is seeded
(from the routing table or from `startupShortlist`), the target bucket is
touched, an empty shortlist triggers `callback([])` — which *falls through*
to `_searchIteration` when a callback exists and returns `[]` otherwise —
and finally `_searchIteration` runs. -/
def iterativeFind (cs : Constants) (st : DHTState) (key : String)
    (startupShortlist : Option (List (List PyVal))) (call : String)
    (hasCallback : Bool) (findID : String) : DHTState × IterFindOutcome :=
  let s := DHTSearch_init key call hasCallback findID
  let stApp : DHTState := { st with searches := st.searches ++ [s] }
  let findValue := call ≠ "findNode"
  let runIter := fun (pre : List Effect) (s₁ : Search) =>
    let r := searchIteration cs st.guid st.routingTable st.activePeers
        stApp.searches s₁ findValue
    ({ st with searches := st.searches ++ [r.1], activePeers := r.2.1 },
      IterFindOutcome.ran (pre ++ r.2.2))
  if ¬ findValue ∧ key = st.guid then (stApp, .lookingForYourself)
  else
    match (if ¬ findValue then
        List.find? (fun n => n.guid == key) st.activePeers
      else none) with
    | some node => (stApp, .foundActivePeer node)
    | none =>
      if startupShortlist = none ∨ startupShortlist = some [] then
        let closeNodes := findCloseNodes st.routingTable key cs.alpha st.guid
        let shortlist := List.map
          (fun c => [PyVal.s c.address.host, PyVal.n c.address.port,
                     PyVal.s c.guid]) closeNodes
        let s₁ := if shortlist.length > 0 then add_to_shortlist s shortlist
          else s
        let touchEffs : List Effect :=
          if key ≠ st.guid then [Effect.touchKBucket key] else []
        if s₁.shortlist.length = 0 then
          if hasCallback then
            runIter (touchEffs ++ [Effect.callbackEmptyShortlist]) s₁
          else ({ st with searches := st.searches ++ [s₁] },
            .emptyNoCallback)
        else runIter touchEffs s₁
      else runIter [] { s with shortlist := startupShortlist.getD [] }

/-- Concrete trace for the C9 counterexample: a lookup for key `"00"` by the
node `"63"`, with alpha = 3, over a routing table holding the contacts
`"08"`, `"09"`, `"0a"` and `"01"`. -/
def c9cs : Constants := ⟨20, 3, 86400, 3600⟩

def c9rt : List Contact :=
  [⟨"08", ⟨"h8", 8⟩, "pk", "nn"⟩, ⟨"09", ⟨"h9", 9⟩, "pk", "nn"⟩,
   ⟨"0a", ⟨"ha", 10⟩, "pk", "nn"⟩, ⟨"01", ⟨"h1", 1⟩, "pk", "nn"⟩]

/-- The search after `_iterativeFind` seeded its shortlist with the three
closest contacts. -/
def c9s0 : Search :=
  add_to_shortlist (DHTSearch_init "00" "findNode" false "fid")
    [[.s "h8", .n 8, .s "08"], [.s "h9", .n 9, .s "09"],
     [.s "ha", .n 10, .s "0a"]]

/-- First `_searchIteration` of the trace. -/
def c9r1 : Search × List Contact × List Effect :=
  searchIteration c9cs "63" c9rt [] [c9s0] c9s0 false

/-- The same search after a `findNodeResponse` added the closer node `"01"`
to the shortlist (via `add_to_shortlist`, as `extendShortlist` does). -/
def c9s1 : Search := add_to_shortlist c9r1.1 [[.s "h1", .n 1, .s "01", .s "n1"]]

/-- Second `_searchIteration` of the trace. -/
def c9r2 : Search × List Contact × List Effect :=
  searchIteration c9cs "63" c9rt [] [c9s1] c9s1 false

theorem dedupeAux_sublist {α : Type} [DecidableEq α] (seen : List (Finset α)) :
    ∀ lst : List (List α), (dedupeAux seen lst).Sublist lst
  | [] => List.Sublist.refl []
  | item :: rest => by
    unfold dedupeAux
    by_cases h : item.toFinset ∈ seen
    · simpa [h] using (dedupeAux_sublist seen rest).cons item
    · simpa [h] using (dedupeAux_sublist (item.toFinset :: seen) rest).cons₂ item

theorem dedupeAux_not_mem_seen {α : Type} [DecidableEq α] :
    ∀ (lst : List (List α)) (seen : List (Finset α)) (x : List α),
      x ∈ dedupeAux seen lst → x.toFinset ∉ seen
  | [], _, _, hx => by simp [dedupeAux] at hx
  | item :: rest, seen, x, hx => by
    unfold dedupeAux at hx
    by_cases h : item.toFinset ∈ seen
    · rw [if_pos h] at hx
      exact dedupeAux_not_mem_seen rest seen x hx
    · rw [if_neg h] at hx
      rcases List.mem_cons.mp hx with rfl | hx'
      · exact h
      · intro hmem
        exact dedupeAux_not_mem_seen rest (item.toFinset :: seen) x hx'
          (List.mem_cons_of_mem _ hmem)

theorem dedupeAux_pairwise {α : Type} [DecidableEq α] :
    ∀ (lst : List (List α)) (seen : List (Finset α)),
      (dedupeAux seen lst).Pairwise (fun a b => a.toFinset ≠ b.toFinset)
  | [], _ => by simp [dedupeAux]
  | item :: rest, seen => by
    unfold dedupeAux
    by_cases h : item.toFinset ∈ seen
    · rw [if_pos h]; exact dedupeAux_pairwise rest seen
    · rw [if_neg h]
      refine List.Pairwise.cons ?_ (dedupeAux_pairwise rest (item.toFinset :: seen))
      intro y hy
      have := dedupeAux_not_mem_seen rest (item.toFinset :: seen) y hy
      intro heq
      exact this (heq ▸ List.mem_cons_self _ _)

theorem dedupeAux_first_occurrence {α : Type} [DecidableEq α] :
    ∀ (l₁ : List (List α)) (x : List α) (l₂ : List (List α))
      (seen : List (Finset α)),
      x.toFinset ∉ seen → (∀ y ∈ l₁, y.toFinset ≠ x.toFinset) →
      x ∈ dedupeAux seen (l₁ ++ x :: l₂)
  | [], x, l₂, seen, hseen, _ => by
    rw [List.nil_append]
    simp only [dedupeAux, if_neg hseen]
    exact List.mem_cons_self _ _
  | y :: l₁, x, l₂, seen, hseen, hfirst => by
    have hy : y.toFinset ≠ x.toFinset := hfirst y (List.mem_cons_self _ _)
    have hrest : ∀ z ∈ l₁, z.toFinset ≠ x.toFinset :=
      fun z hz => hfirst z (List.mem_cons_of_mem _ hz)
    rw [List.cons_append]
    simp only [dedupeAux]
    by_cases h : y.toFinset ∈ seen
    · rw [if_pos h]
      exact dedupeAux_first_occurrence l₁ x l₂ seen hseen hrest
    · rw [if_neg h]
      refine List.mem_cons_of_mem _ ?_
      refine dedupeAux_first_occurrence l₁ x l₂ (y.toFinset :: seen) ?_ hrest
      intro hmem
      rcases List.mem_cons.mp hmem with heq | hmem'
      · exact hy heq.symm
      · exact hseen hmem'

theorem dedupe_sublist {α : Type} [DecidableEq α] (lst : List (List α)) :
    (dedupe lst).Sublist lst :=
  dedupeAux_sublist [] lst

theorem dedupe_pairwise {α : Type} [DecidableEq α] (lst : List (List α)) :
    (dedupe lst).Pairwise (fun a b => a.toFinset ≠ b.toFinset) :=
  dedupeAux_pairwise lst []

theorem dedupe_first_occurrence {α : Type} [DecidableEq α]
    (l₁ : List (List α)) (x : List α) (l₂ : List (List α))
    (hfirst : ∀ y ∈ l₁, y.toFinset ≠ x.toFinset) :
    x ∈ dedupe (l₁ ++ x :: l₂) :=
  dedupeAux_first_occurrence l₁ x l₂ [] (by simp) hfirst

theorem dedupeAux_complete {α : Type} [DecidableEq α] :
    ∀ (lst : List (List α)) (seen : List (Finset α)) (x : List α),
      x ∈ lst →
      x.toFinset ∈ seen ∨ ∃ y ∈ dedupeAux seen lst, y.toFinset = x.toFinset
  | [], _, _, hx => absurd hx (List.not_mem_nil _)
  | item :: rest, seen, x, hx => by
    simp only [dedupeAux]
    by_cases h : item.toFinset ∈ seen
    · rw [if_pos h]
      rcases List.mem_cons.mp hx with rfl | hx'
      · left; exact h
      · exact dedupeAux_complete rest seen x hx'
    · rw [if_neg h]
      rcases List.mem_cons.mp hx with rfl | hx'
      · right; exact ⟨x, List.mem_cons_self _ _, rfl⟩
      · rcases dedupeAux_complete rest (item.toFinset :: seen) x hx' with
          hmem | ⟨y, hy, hyx⟩
        · rcases List.mem_cons.mp hmem with heq | hseen
          · right; exact ⟨item, List.mem_cons_self _ _, heq.symm⟩
          · left; exact hseen
        · right; exact ⟨y, List.mem_cons_of_mem _ hy, hyx⟩

/-! ## Claims -/

/-- **C6, counterexample.** The claim says equivalence is by *multiset* of
components, so that `(a,a,b)` and `(a,b,b)` do not collapse.  The source
uses `frozenset(item)` — a *set* — so they do collapse: `dedupe` keeps only
the first of the two. -/
theorem C6_dedupe_counterexample :
    dedupe [([0, 0, 1] : List Nat), [0, 1, 1]] = [[0, 0, 1]] ∧
    dedupe [([0, 0, 1] : List Nat), [0, 1, 1]] ≠ [[0, 0, 1], [0, 1, 1]] := by
  decide

/-- **C6, amended.** `dedupe` keeps the first occurrence of each
*set*-of-components class and removes every later item whose set of
components equals an earlier item's: the result is a sublist of the input,
no two kept items share a component set, every first occurrence of a class
is kept, every class of the input is represented, and `(a,b)`/`(b,a)`
collapse to the first of the two. -/
theorem C6_dedupe_amended {α : Type} [DecidableEq α] (lst : List (List α)) :
    (dedupe lst).Sublist lst ∧
    (dedupe lst).Pairwise (fun a b => a.toFinset ≠ b.toFinset) ∧
    (∀ l₁ x l₂, lst = l₁ ++ x :: l₂ →
      (∀ y ∈ l₁, y.toFinset ≠ x.toFinset) → x ∈ dedupe lst) ∧
    (∀ x ∈ lst, ∃ y ∈ dedupe lst, y.toFinset = x.toFinset) ∧
    dedupe [([0, 1] : List Nat), [1, 0]] = [[0, 1]] := by
  refine ⟨dedupe_sublist lst, dedupe_pairwise lst, ?_, ?_, by decide⟩
  · intro l₁ x l₂ hdec hfirst
    subst hdec
    exact dedupe_first_occurrence l₁ x l₂ hfirst
  · intro x hx
    rcases dedupeAux_complete lst [] x hx with h | h
    · simp at h
    · exact h

/-- **C6, witness** for the amended theorem: on `[[0,1],[1,0]]` the first
occurrence `[0,1]` is kept. -/
theorem C6_dedupe_amended_witness :
    ([0, 1] : List Nat) ∈ dedupe [[0, 1], [1, 0]] :=
  (C6_dedupe_amended [[0, 1], [1, 0]]).2.2.1 [] [0, 1] [[1, 0]] rfl (by simp)

/-- **C1, counterexample.** Two inbound `store` messages carrying
`keyword_index_add` payloads for the same key are handled by
`_on_storeValue`, which applies no index merge: the second raw payload
overwrites the first, and the resulting record is not
`\x7blistings: ["L1","L2"]\x7d` in either order. -/
theorem C1_store_message_counterexample :
    dsGetItem (on_storeValue 1 100 (on_storeValue 1 100 []
        ⟨"K", .opDict { keywordAdd := some "L1" }, "writerA", 0⟩)
        ⟨"K", .opDict { keywordAdd := some "L2" }, "writerB", 0⟩) "K"
      = some (.opDict { keywordAdd := some "L2" }) ∧
    some (Value.opDict { keywordAdd := some "L2" })
      ≠ some (Value.listingsDict ["L1", "L2"]) ∧
    some (Value.opDict { keywordAdd := some "L2" })
      ≠ some (Value.listingsDict ["L2", "L1"]) := by decide

/-- **C1, amended.** The inbound `store` handler `_on_storeValue` writes a
truthy payload verbatim — the index merge is *not* applied on the inbound
path, so the last raw payload overwrites.  The merge lives in
`storeKeyValue`, the local-write path of `iterativeStore`: two successive
`storeKeyValue` calls with `keyword_index_add` of `"L1"` and `"L2"` at the
same key leave `\x7blistings: ["L1","L2"]\x7d` in the local store. -/
theorem C1_index_merge_location :
    (∀ (market : Nat) (now : Int) (ds : DataStore) (msg : StoreMsg),
      valueTruthy msg.value = true →
      on_storeValue market now ds msg
        = setItem ds msg.key msg.value now (now - msg.age)
            msg.originalPublisherID market) ∧
    dsGetItem (storeKeyValue [] "self" 1 100
        (storeKeyValue [] "self" 1 100 [] [] "K"
          (.str "j1" (some { keywordAdd := some "L1" })) "A" 0).1
        [] "K" (.str "j2" (some { keywordAdd := some "L2" })) "B" 0).1 "K"
      = some (.listingsDict ["L1", "L2"]) := by
  refine ⟨?_, by decide⟩
  intro market now ds msg h
  simp [on_storeValue, h]

/-- **C1, witness** for the amended theorem: a concrete truthy inbound
store message is written verbatim. -/
theorem C1_index_merge_location_witness :
    on_storeValue 1 50 [] ⟨"K", .str "v" none, "P", 0⟩
      = setItem [] "K" (.str "v" none) 50 (50 - 0) "P" 1 :=
  C1_index_merge_location.1 1 50 [] ⟨"K", .str "v" none, "P", 0⟩ (by decide)

/-- **C7 (confirmed).** `store` raises `TypeError` exactly when neither
`originalPublisherID` nor `_rpcNodeID` is supplied; otherwise it writes the
record with `lastPublished = now`, `originallyPublished = now - age` and
the publisher taken from `originalPublisherID`, falling back to
`_rpcNodeID`, and returns `'OK'`. -/
theorem C7_store_publisher (market : Nat) (now : Int) (ds : DataStore)
    (key : String) (value : Value) (pub rpc : Option String) (age : Int) :
    (store market now ds key value pub age rpc = .error .typeError ↔
      pub = none ∧ rpc = none) ∧
    (∀ p, pub = some p →
      store market now ds key value pub age rpc
        = .ok (setItem ds key value now (now - age) p market, "OK")) ∧
    (∀ r, pub = none → rpc = some r →
      store market now ds key value pub age rpc
        = .ok (setItem ds key value now (now - age) r market, "OK")) := by
  cases pub <;> cases rpc <;> simp [store]

/-- **C7, witness**: a call with an explicit publisher succeeds and writes
the record. -/
theorem C7_store_publisher_witness :
    store 1 10 [] "k" (.str "v" none) (some "P") 0 none
      = .ok (setItem [] "k" (.str "v" none) 10 (10 - 0) "P" 1, "OK") :=
  (C7_store_publisher 1 10 [] "k" (.str "v" none) (some "P") none 0).2.1 "P"
    rfl

/-- **C2, counterexample.** The claim defines age as `now` minus the
originally-published time.  For an owned key published *right now* (claimed
age 0, far below `T_expire = 86400`) the sweep nevertheless re-stores it,
because the source computes `age = now - originalPublishTime + 500000`
(`dht.py` 407). -/
theorem C2_sweep_counterexample :
    republishKeyStep ⟨20, 3, 86400, 3600⟩ "aa" 1000000
        ⟨fun _ => "aa", fun _ => 1000000, fun _ => 1000000, fun _ => none⟩ "k"
      = some (.republish "6b" none) ∧
    ((1000000 : Int) - 1000000 < 86400) :=
  ⟨rfl, by decide⟩

/-- **C2, amended.** With age defined as the source computes it —
`now - originalPublishTime(hex-encoded key) + 500000` — an owned key is
re-stored exactly when that age reaches `dataExpireTimeout`, a non-owned key
is expired exactly at the same threshold and otherwise re-replicated exactly
when `now - lastPublished ≥ replicateInterval`, and the bookkeeping key
`nodeState` is never republished, replicated or deleted. -/
theorem C2_sweep_amended (cs : Constants) (guid : String) (now : Int)
    (o : SweepOracle) (key : String) (hk : key ≠ "nodeState") :
    (republishKeyStep cs guid now o key
        = some (.republish (hexEncode key) (o.getValue (hexEncode key))) ↔
      o.originalPublisherID (hexEncode key) = guid ∧
        now - o.originalPublishTime (hexEncode key) + 500000
          ≥ cs.dataExpireTimeout) ∧
    (republishKeyStep cs guid now o key = some (.expire (hexEncode key)) ↔
      o.originalPublisherID (hexEncode key) ≠ guid ∧
        now - o.originalPublishTime (hexEncode key) + 500000
          ≥ cs.dataExpireTimeout) ∧
    (republishKeyStep cs guid now o key
        = some (.replicate (hexEncode key) (o.getValue (hexEncode key))
            (o.originalPublisherID (hexEncode key))
            (now - o.originalPublishTime (hexEncode key) + 500000)) ↔
      o.originalPublisherID (hexEncode key) ≠ guid ∧
        now - o.originalPublishTime (hexEncode key) + 500000
          < cs.dataExpireTimeout ∧
        now - o.lastPublished (hexEncode key) ≥ cs.replicateInterval) ∧
    threadedRepublishData cs guid now o ["nodeState"] = ([], []) := by
  refine ⟨?_, ?_, ?_, rfl⟩ <;>
    simp only [republishKeyStep, if_neg hk] <;>
    split_ifs with h1 h2 <;>
    simp_all [not_le]

/-- **C2, witness** for the amended theorem: a non-owned key past the
(offset) expiry threshold is marked expired. -/
theorem C2_sweep_amended_witness :
    republishKeyStep ⟨20, 3, 86400, 3600⟩ "aa" 1000000
        ⟨fun _ => "bb", fun _ => 1000000, fun _ => 1000000, fun _ => none⟩ "k"
      = some (.expire (hexEncode "k")) :=
  (C2_sweep_amended ⟨20, 3, 86400, 3600⟩ "aa" 1000000
      ⟨fun _ => "bb", fun _ => 1000000, fun _ => 1000000, fun _ => none⟩ "k"
      (by decide)).2.1.mpr ⟨by decide, by decide⟩

theorem sendStores_cons_self (rt : List Contact) (lg key : String)
    (v : Value) (pub : String) (age : Int) (node : List PyVal)
    (rest : List (List PyVal)) (h : tupStr node 2 = lg) :
    sendStores rt lg key v pub age (node :: rest) = [] := by
  simp [sendStores, h]

theorem sendStores_cons_ne (rt : List Contact) (lg key : String)
    (v : Value) (pub : String) (age : Int) (node : List PyVal)
    (rest : List (List PyVal)) (h : tupStr node 2 ≠ lg) :
    sendStores rt lg key v pub age (node :: rest)
      = (match getContact rt (tupStr node 2) with
         | some _ => []
         | none => [Effect.startHandshake (tupStr node 2)
             { host := tupStr node 0, port := tupNat node 1 }]) ++
        Effect.sendStore (tupStr node 2) key v pub age ::
          sendStores rt lg key v pub age rest := by
  simp [sendStores, h]

/-- **C4, counterexample.** The replica loop of `storeKeyValue` uses `break`
on the local guid, not `continue`: with the local node first in the
closest-nodes list, the non-self node `"bb"` after it receives nothing (the
effect list is empty), although the local write still happened. -/
theorem C4_replica_break_counterexample :
    (storeKeyValue [] "aa" 1 100 []
        [[.s "h1", .n 1, .s "aa"], [.s "h2", .n 2, .s "bb"]]
        "K" (.str "v" none) "P" 0).2 = [] ∧
    (storeKeyValue [] "aa" 1 100 []
        [[.s "h1", .n 1, .s "aa"], [.s "h2", .n 2, .s "bb"]]
        "K" (.str "v" none) "P" 0).1
      = setItem [] "K" (.str "v" none) 100 (100 - 0) "P" 1 ∧
    ("bb" : String) ≠ "aa" := by decide

/-- **C4, amended.** `iterativeStore` (through `storeKeyValue`) writes the
(merged) value to the local store with `(now, now - age, publisher)` — the
publisher defaulting to the local guid — and sends `store` messages to
exactly the nodes *strictly before the first occurrence of the local node*
in the closest-nodes list: the loop `break`s at the local node, so nodes at
or after it receive nothing. -/
theorem C4_iterativeStore_amended :
    (∀ (rt : List Contact) (lg : String) (market : Nat) (now : Int)
       (ds : DataStore) (nodes : List (List PyVal)) (key : String)
       (value : Value) (pub : String) (age : Int) (v' : Value),
      storeKeyValueMerge ds key value = .proceed v' →
      storeKeyValue rt lg market now ds nodes key value pub age
        = (setItem ds key v' now (now - age) pub market,
           sendStores rt lg key v' pub age nodes)) ∧
    (∀ (rt : List Contact) (lg key : String) (v : Value) (pub : String)
       (age : Int) (nodes : List (List PyVal)),
      sendStores rt lg key v pub age nodes
        = sendStores rt lg key v pub age
            (nodes.takeWhile (fun n => tupStr n 2 != lg))) ∧
    (∀ (rt : List Contact) (lg key : String) (v : Value) (pub : String)
       (age : Int) (nodes : List (List PyVal)) (node : List PyVal),
      node ∈ nodes.takeWhile (fun n => tupStr n 2 != lg) →
      Effect.sendStore (tupStr node 2) key v pub age
        ∈ sendStores rt lg key v pub age nodes) ∧
    (∀ lg : String, iterativeStorePublisher lg none = lg) ∧
    (∀ (rt : List Contact) (lg : String) (market : Nat) (now : Int)
       (ds : DataStore) (nodes : List (List PyVal)) (key : String)
       (value : Value) (pub : Option String) (age : Int),
      valueTruthy value = true →
      iterativeStore rt lg market now ds nodes key value pub age
        = storeKeyValue rt lg market now ds nodes key value
            (iterativeStorePublisher lg pub) age) := by
  refine ⟨?_, ?_, ?_, fun lg => rfl, ?_⟩
  · intro rt lg market now ds nodes key value pub age v' h
    simp only [storeKeyValue, h]
  · intro rt lg key v pub age nodes
    induction nodes with
    | nil => rfl
    | cons node rest ih =>
      by_cases h : tupStr node 2 = lg
      · rw [sendStores_cons_self rt lg key v pub age node rest h,
          List.takeWhile_cons]
        simp [h, sendStores]
      · rw [sendStores_cons_ne rt lg key v pub age node rest h,
          List.takeWhile_cons, if_pos (by simp [h] : (tupStr node 2 != lg) = true),
          sendStores_cons_ne rt lg key v pub age node _ h, ih]
  · intro rt lg key v pub age nodes node hmem
    induction nodes with
    | nil => simp at hmem
    | cons hd rest ih =>
      rw [List.takeWhile_cons] at hmem
      by_cases h : tupStr hd 2 = lg
      · rw [if_neg (by simp [h])] at hmem
        simp at hmem
      · rw [if_pos (by simp [h] : (tupStr hd 2 != lg) = true)] at hmem
        rw [sendStores_cons_ne rt lg key v pub age hd rest h]
        rcases List.mem_cons.mp hmem with rfl | hmem'
        · exact List.mem_append_right _ (List.mem_cons_self _ _)
        · exact List.mem_append_right _ (List.mem_cons_of_mem _ (ih hmem'))
  · intro rt lg market now ds nodes key value pub age h
    simp [iterativeStore, h]

/-- **C4, witness** for the amended theorem: an opaque value is written
locally and then dispatched to the (single, non-self) returned node. -/
theorem C4_iterativeStore_amended_witness :
    storeKeyValue [] "aa" 1 100 [] [[.s "h2", .n 2, .s "bb"]] "K"
        (.str "v" none) "P" 0
      = (setItem [] "K" (.str "v" none) 100 (100 - 0) "P" 1,
         sendStores [] "aa" "K" (.str "v" none) "P" 0
           [[.s "h2", .n 2, .s "bb"]]) :=
  C4_iterativeStore_amended.1 [] "aa" 1 100 [] [[.s "h2", .n 2, .s "bb"]]
    "K" (.str "v" none) "P" 0 (.str "v" none) rfl

/-- **C5, counterexample.** A `findNode` message whose sender is the local
node, or with a missing required field, makes `on_find_node` raise (the
`assert`s of `dht.py` 179-183 / the `KeyError` of the field reads): the
result is an exception, not a silent drop — contradicting "no exception
propagates to the caller". -/
theorem C5_precondition_counterexample :
    on_find_node ⟨20, 3, 86400, 3600⟩ "aa" [] []
        ⟨some "aa", some "K", some "fid", some ⟨"h", 1⟩, some "pk", true⟩
      = .error .assertionError ∧
    on_find_node ⟨20, 3, 86400, 3600⟩ "aa" [] []
        ⟨some "bb", none, some "fid", some ⟨"h", 1⟩, some "pk", true⟩
      = .error .assertionError :=
  ⟨by simp [on_find_node], rfl⟩

/-- **C5, amended.** On a missing (or null) required field, or a sender guid
equal to the local guid, `on_find_node` raises before doing anything else:
no reply is sent and no state is mutated (the error result carries
neither), but the exception propagates to the caller instead of being
swallowed. -/
theorem C5_precondition_amended (cs : Constants) (lg : String)
    (rt : List Contact) (ds : DataStore) (msg : FindNodeMsg)
    (h : msg.senderGUID = none ∨ msg.senderGUID = some lg ∨ msg.key = none ∨
      msg.findID = none ∨ msg.uri = none ∨ msg.pubkey = none) :
    on_find_node cs lg rt ds msg = .error .assertionError := by
  obtain ⟨g, k, fi, u, p, fv⟩ := msg
  rcases h with h | h | h | h | h | h
  · subst h; rfl
  · subst h
    cases k <;> cases fi <;> cases u <;> cases p <;> simp [on_find_node]
  · subst h; cases g <;> rfl
  · subst h; cases g <;> cases k <;> rfl
  · subst h; cases g <;> cases k <;> cases fi <;> rfl
  · subst h; cases g <;> cases k <;> cases fi <;> cases u <;> rfl

/-- **C5, witness** for the amended theorem: a message with a missing `key`
field raises. -/
theorem C5_precondition_amended_witness :
    on_find_node ⟨20, 3, 86400, 3600⟩ "bb" [] []
        ⟨some "x", none, some "f", some ⟨"h", 1⟩, some "pk", false⟩
      = .error .assertionError :=
  C5_precondition_amended ⟨20, 3, 86400, 3600⟩ "bb" [] []
    ⟨some "x", none, some "f", some ⟨"h", 1⟩, some "pk", false⟩
    (Or.inr (Or.inr (Or.inl rfl)))

theorem dsGetItem_some_contains (ds : DataStore) (k : String) (v : Value)
    (h : dsGetItem ds k = some v) : dsContains ds k = true := by
  unfold dsGetItem at h
  unfold dsContains
  cases hf : List.find? (fun e => e.1 == k) ds with
  | none => rw [hf] at h; exact absurd h (by simp)
  | some e => simp

theorem findCloseNodes_mem_ne (rt : List Contact) (k : String) (n : Nat)
    (ex : String) (c : Contact) (h : c ∈ findCloseNodes rt k n ex) :
    c.guid ≠ ex := by
  unfold findCloseNodes at h
  have h2 := List.take_subset n _ h
  rw [List.mem_insertionSort] at h2
  have h3 := List.mem_filter.mp h2
  simpa using h3.2

theorem close_nodes_length_le (cs : Constants) (rt : List Contact)
    (k g : String) : (close_nodes cs rt k g).length ≤ cs.k := by
  unfold close_nodes
  refine le_trans (dedupe_sublist _).length_le ?_
  rw [List.length_map]
  unfold findCloseNodes
  rw [List.length_take]
  exact min_le_left _ _

theorem close_nodes_excludes (cs : Constants) (rt : List Contact)
    (k g : String) : ∀ t ∈ close_nodes cs rt k g, tupStr t 0 ≠ g := by
  intro t ht
  have hsub := (dedupe_sublist _).subset ht
  rcases List.mem_map.mp hsub with ⟨c, hc, rfl⟩
  have hne := findCloseNodes_mem_ne rt k cs.k g c hc
  simpa [tupStr] using hne

/-- **C3 (confirmed).** `on_find_node` replies only when the sender is in the
routing table (an unknown sender gets no reply and no state change).  For a
known sender: with `findValue` and a locally present non-null value it
sends `foundKey` with that value; with `findValue` false and the requested
key a known contact it sends `foundNode` with that contact's (guid,
address, pubkey); otherwise `foundNodes` — which holds at most `k` contacts
from the routing table, none with the sender's guid, deduplicated (pairwise
distinct component sets). -/
theorem C3_on_find_node_replies (cs : Constants) (lg : String)
    (rt : List Contact) (ds : DataStore) (g k fi : String) (u : Uri)
    (pk : String) (fv : Bool)
    (R : Except PyErr (Option FindNodeReply × List Contact)) (hne : g ≠ lg)
    (hR : R = on_find_node cs lg rt ds ⟨some g, some k, some fi, some u,
      some pk, fv⟩) :
    (getContact rt g = none → R = .ok (none, rt)) ∧
    (∀ c, getContact rt g = some c →
      (∀ v, dsGetItem ds k = some v → fv = true →
        R = .ok (some (.foundKey v fi), rtRefresh rt c u)) ∧
      (dsGetItem ds k = none → fv = true →
        R = .ok (some (.foundNodes (close_nodes cs rt k g) fi),
          rtRefresh rt c u)) ∧
      (∀ fc, getContact rt k = some fc → fv = false →
        R = .ok (some (.foundNode fc.guid fc.address fc.pub fi),
          rtRefresh rt c u)) ∧
      (getContact rt k = none → fv = false →
        R = .ok (some (.foundNodes (close_nodes cs rt k g) fi),
          rtRefresh rt c u))) ∧
    (close_nodes cs rt k g).length ≤ cs.k ∧
    (∀ t ∈ close_nodes cs rt k g, tupStr t 0 ≠ g) ∧
    (close_nodes cs rt k g).Pairwise (fun a b => a.toFinset ≠ b.toFinset) := by
  subst hR
  refine ⟨?_, ?_, close_nodes_length_le cs rt k g,
    close_nodes_excludes cs rt k g, dedupe_pairwise _⟩
  · intro hc
    simp [on_find_node, hne, hc]
  · intro c hc
    refine ⟨?_, ?_, ?_, ?_⟩
    · intro v hv hfv
      subst hfv
      have hcont := dsGetItem_some_contains ds k v hv
      simp [on_find_node, hne, hc, hv, hcont]
    · intro hv hfv
      subst hfv
      simp [on_find_node, hne, hc, hv]
    · intro fc hfc hfv
      subst hfv
      simp [on_find_node, hne, hc, hfc]
    · intro hfc hfv
      subst hfv
      simp [on_find_node, hne, hc, hfc]

/-- **C3, witness**: a known sender asking (findValue = false) for the guid
of another known contact receives `foundNode` with that contact's data. -/
theorem C3_on_find_node_replies_witness :
    on_find_node ⟨2, 3, 86400, 3600⟩ "ff"
        [⟨"aa", ⟨"ha", 1⟩, "pka", "na"⟩, ⟨"bb", ⟨"hb", 2⟩, "pkb", "nb"⟩] []
        ⟨some "aa", some "bb", some "fid", some ⟨"ha", 1⟩, some "pka", false⟩
      = .ok (some (.foundNode "bb" ⟨"hb", 2⟩ "pkb" "fid"),
          rtRefresh [⟨"aa", ⟨"ha", 1⟩, "pka", "na"⟩, ⟨"bb", ⟨"hb", 2⟩, "pkb",
            "nb"⟩] ⟨"aa", ⟨"ha", 1⟩, "pka", "na"⟩ ⟨"ha", 1⟩) :=
  ((C3_on_find_node_replies ⟨2, 3, 86400, 3600⟩ "ff"
      [⟨"aa", ⟨"ha", 1⟩, "pka", "na"⟩, ⟨"bb", ⟨"hb", 2⟩, "pkb", "nb"⟩] []
      "aa" "bb" "fid" ⟨"ha", 1⟩ "pka" false _ (by decide) rfl).2.1
    ⟨"aa", ⟨"ha", 1⟩, "pka", "na"⟩ rfl).2.2.1
    ⟨"bb", ⟨"hb", 2⟩, "pkb", "nb"⟩ rfl rfl

theorem add_to_shortlist_mono :
    ∀ (adds : List (List PyVal)) (s : Search) (x : List PyVal),
      x ∈ s.shortlist → x ∈ (add_to_shortlist s adds).shortlist
  | [], _, _, hx => hx
  | a :: rest, s, x, hx => by
    show x ∈ (add_to_shortlist
      (if a ∈ s.shortlist then s
       else { s with shortlist := s.shortlist ++ [a] }) rest).shortlist
    apply add_to_shortlist_mono rest
    by_cases h : a ∈ s.shortlist
    · rw [if_pos h]; exact hx
    · rw [if_neg h]; exact List.mem_append_left _ hx

theorem add_to_shortlist_single_mem (s : Search) (a : List PyVal) :
    a ∈ (add_to_shortlist s [a]).shortlist := by
  unfold add_to_shortlist
  rw [List.foldl_cons, List.foldl_nil]
  by_cases h : a ∈ s.shortlist
  · rw [if_pos h]; exact h
  · rw [if_neg h]; exact List.mem_append_right _ (List.mem_cons_self _ _)

theorem extendOne_shortlist_mono :
    ∀ (nodes : List FoundNode) (lg : String) (s : Search) (x : List PyVal),
      x ∈ s.shortlist → x ∈ (extendOne lg s nodes).1.shortlist
  | [], _, _, _, hx => hx
  | node :: rest, lg, s, x, hx => by
    simp only [extendOne]
    apply extendOne_shortlist_mono rest
    by_cases h : foundNodeTuple node ∈ s.shortlist
    · rw [if_pos h]; exact hx
    · rw [if_neg h]; exact add_to_shortlist_mono _ _ _ hx

theorem extendOne_tuple_mem :
    ∀ (nodes : List FoundNode) (lg : String) (s : Search) (node : FoundNode),
      node ∈ nodes → foundNodeTuple node ∈ (extendOne lg s nodes).1.shortlist
  | [], _, _, _, hmem => absurd hmem (List.not_mem_nil _)
  | hd :: rest, lg, s, node, hmem => by
    simp only [extendOne]
    rcases List.mem_cons.mp hmem with rfl | hmem'
    · apply extendOne_shortlist_mono rest
      by_cases h : foundNodeTuple node ∈ s.shortlist
      · rw [if_pos h]; exact h
      · rw [if_neg h]; exact add_to_shortlist_single_mem s _
    · exact extendOne_tuple_mem rest lg _ node hmem'

theorem extendOne_effects :
    ∀ (nodes : List FoundNode) (lg : String) (s : Search),
      (extendOne lg s nodes).2
        = (nodes.filter (fun n => n.guid != lg)).map
            (fun n => Effect.peerUpsert n.uri n.pubkey n.guid n.nick)
  | [], _, _ => rfl
  | node :: rest, lg, s => by
    simp only [extendOne, List.filter_cons]
    by_cases h : node.guid = lg
    · simp [h, extendOne_effects rest]
    · simp [h, extendOne_effects rest]

/-- **C8, counterexample.** `extendShortlist` appends the found node's tuple
*before* the skip-self check: a found node carrying the local guid `"aa"`
is appended to the matching search's shortlist (only the peer upsert is
skipped), contradicting "the local node is never appended to any search's
shortlist". -/
theorem C8_extendShortlist_counterexample :
    extendShortlist "aa" [DHTSearch_init "K" "findNode" false "f"] "f"
        [⟨"aa", ⟨"h", 1⟩, "pk", "me"⟩]
      = ([{ DHTSearch_init "K" "findNode" false "f" with
            shortlist := [[.s "h", .n 1, .s "aa", .s "me"]] }], []) := by
  decide

/-- **C8, amended.** Every found node's `(ip, port, guid, nickname)` tuple —
the local node's included — ends up in the search's shortlist; the
skip-self `continue` only bypasses the peer upsert, so upserts are
requested exactly for the nodes whose guid differs from the local one; and
`extendShortlist` emits no `findNode` probe. -/
theorem C8_extendShortlist_amended :
    (∀ (lg : String) (s : Search) (nodes : List FoundNode) (node : FoundNode),
      node ∈ nodes →
      foundNodeTuple node ∈ (extendOne lg s nodes).1.shortlist) ∧
    (∀ (lg : String) (s : Search) (nodes : List FoundNode),
      (extendOne lg s nodes).2
        = (nodes.filter (fun n => n.guid != lg)).map
            (fun n => Effect.peerUpsert n.uri n.pubkey n.guid n.nick)) ∧
    (∀ (lg : String) (searches : List Search) (fid : String)
       (nodes : List FoundNode) (e : Effect),
      e ∈ (extendShortlist lg searches fid nodes).2 →
      e.isFindNode = false) := by
  refine ⟨fun lg s nodes node h => extendOne_tuple_mem nodes lg s node h,
    fun lg s nodes => extendOne_effects nodes lg s, ?_⟩
  intro lg searches fid nodes e he
  unfold extendShortlist at he
  cases hlast : (List.filter (fun s => s.findID == fid) searches).getLast? with
  | none => rw [hlast] at he; exact absurd he (List.not_mem_nil _)
  | some search =>
    rw [hlast] at he
    simp only at he
    rw [extendOne_effects nodes lg search] at he
    rcases List.mem_map.mp he with ⟨n, _, rfl⟩
    rfl

/-- **C8, witness** for the amended theorem: a non-self found node's tuple
lands in the shortlist. -/
theorem C8_extendShortlist_amended_witness :
    foundNodeTuple ⟨"aa", ⟨"h", 1⟩, "pk", "me"⟩
      ∈ (extendOne "bb" (DHTSearch_init "K" "findNode" false "f")
          [⟨"aa", ⟨"h", 1⟩, "pk", "me"⟩]).1.shortlist :=
  C8_extendShortlist_amended.1 "bb" (DHTSearch_init "K" "findNode" false "f")
    [⟨"aa", ⟨"h", 1⟩, "pk", "me"⟩] ⟨"aa", ⟨"h", 1⟩, "pk", "me"⟩
    (List.mem_singleton.mpr rfl)

theorem sendLoopStep_contactedNow (lg : String) (rt : List Contact)
    (key : String) (fv : Bool) (fid : String) (s : Search)
    (node : List PyVal) :
    (sendLoopStep lg rt key fv fid s node).1.contactedNow
      = s.contactedNow + (sendLoopStep lg rt key fv fid s node).2.length := by
  unfold sendLoopStep
  split_ifs with h
  · cases hgc : getContact rt (tupStr node 2) <;> simp [hgc]
  · simp

theorem sendLoopStep_len_le (lg : String) (rt : List Contact) (key : String)
    (fv : Bool) (fid : String) (s : Search) (node : List PyVal) :
    (sendLoopStep lg rt key fv fid s node).2.length ≤ 1 := by
  unfold sendLoopStep
  split_ifs with h
  · cases hgc : getContact rt (tupStr node 2) <;> simp [hgc]
  · simp

theorem sendLoop_delta (cs : Constants) (lg : String) (rt : List Contact)
    (key : String) (fv : Bool) (fid : String) :
    ∀ (nodes : List (List PyVal)) (s : Search),
      (sendLoop cs lg rt key fv fid nodes s).1.contactedNow
        = s.contactedNow + (sendLoop cs lg rt key fv fid nodes s).2.length
  | [], s => by simp [sendLoop]
  | node :: rest, s => by
    simp only [sendLoop]
    have hstep := sendLoopStep_contactedNow lg rt key fv fid s node
    by_cases hb : (sendLoopStep lg rt key fv fid s node).1.contactedNow
        = cs.alpha
    · rw [if_pos hb]
      exact hstep
    · rw [if_neg hb]
      have ih := sendLoop_delta cs lg rt key fv fid rest
          (sendLoopStep lg rt key fv fid s node).1
      simp only [List.length_append]
      omega

theorem sendLoop_bound (cs : Constants) (lg : String) (rt : List Contact)
    (key : String) (fv : Bool) (fid : String) :
    ∀ (nodes : List (List PyVal)) (s : Search),
      s.contactedNow < cs.alpha →
      (sendLoop cs lg rt key fv fid nodes s).1.contactedNow ≤ cs.alpha
  | [], s, h => by simp [sendLoop]; omega
  | node :: rest, s, h => by
    simp only [sendLoop]
    have hstep := sendLoopStep_contactedNow lg rt key fv fid s node
    have hlen := sendLoopStep_len_le lg rt key fv fid s node
    by_cases hb : (sendLoopStep lg rt key fv fid s node).1.contactedNow
        = cs.alpha
    · rw [if_pos hb]; omega
    · rw [if_neg hb]
      exact sendLoop_bound cs lg rt key fv fid rest _ (by omega)

theorem searchIterationPrep_contactedNow (key : String)
    (peers' : List Contact) (s : Search) :
    (searchIterationPrep key peers' s).contactedNow = s.contactedNow := by
  unfold searchIterationPrep
  cases hp : peers'.head? <;> simp only [hp] <;> split_ifs <;> rfl

theorem searchIteration_delta (cs : Constants) (lg : String)
    (rt : List Contact) (aps : List Contact) (searches : List Search)
    (s : Search) (fv : Bool) :
    (searchIteration cs lg rt aps searches s fv).1.contactedNow
      = s.contactedNow
        + (searchIteration cs lg rt aps searches s fv).2.2.length := by
  simp only [searchIteration]
  have hcn := searchIterationPrep_contactedNow s.key
      (List.insertionSort (peerDistLe s.key) aps) s
  by_cases hc : activeSearchExists searches s.findID = true
  · rw [if_neg (fun hn => hn hc)]
    have hd := sendLoop_delta cs lg rt
        (searchIterationPrep s.key (List.insertionSort (peerDistLe s.key) aps)
          s).key fv
        (searchIterationPrep s.key (List.insertionSort (peerDistLe s.key) aps)
          s).findID
        (searchIterationPrep s.key (List.insertionSort (peerDistLe s.key) aps)
          s).shortlist
        (searchIterationPrep s.key (List.insertionSort (peerDistLe s.key) aps)
          s)
    dsimp only
    omega
  · rw [if_pos hc]
    simpa using hcn

theorem searchIteration_bound (cs : Constants) (lg : String)
    (rt : List Contact) (aps : List Contact) (searches : List Search)
    (s : Search) (fv : Bool) (h : s.contactedNow < cs.alpha) :
    (searchIteration cs lg rt aps searches s fv).1.contactedNow
      ≤ cs.alpha := by
  simp only [searchIteration]
  have hcn := searchIterationPrep_contactedNow s.key
      (List.insertionSort (peerDistLe s.key) aps) s
  by_cases hc : activeSearchExists searches s.findID = true
  · rw [if_neg (fun hn => hn hc)]
    dsimp only
    exact sendLoop_bound cs lg rt _ fv _ _ _ (by omega)
  · rw [if_pos hc]
    dsimp only
    omega

/-- **C9, counterexample.** A fresh search (counter 0, alpha = 3) sends 3
probes in its first iteration (breaking at `_contactedNow == alpha`); after
a closer node joins the shortlist, the second iteration enters with the
counter already equal to alpha, sends another probe — pushing the counter
to 4, past the equality check — so the search sends 4 findNode probes in
total, more than alpha. -/
theorem C9_alpha_counterexample :
    c9s0.contactedNow = 0 ∧
    (c9r1.2.2.filter Effect.isFindNode).length = 3 ∧
    (c9r2.2.2.filter Effect.isFindNode).length = 1 ∧
    3 + 1 > c9cs.alpha := by decide

/-- **C9, amended.** `_contactedNow` starts at zero and is only ever
incremented; each iteration's loop `break`s only when the counter *equals*
alpha at the per-node check, so an iteration entered with the counter below
alpha sends at most `alpha - counter` probes and leaves the counter at most
alpha — but an iteration entered with the counter already at alpha can push
it past the check, so the lifetime total of a search is *not* bounded by
alpha. -/
theorem C9_alpha_amended :
    (∀ (key call : String) (hasCb : Bool) (fid : String),
      (DHTSearch_init key call hasCb fid).contactedNow = 0) ∧
    (∀ (cs : Constants) (lg : String) (rt : List Contact) (key : String)
       (fv : Bool) (fid : String) (nodes : List (List PyVal)) (s : Search),
      (sendLoop cs lg rt key fv fid nodes s).1.contactedNow
        = s.contactedNow + (sendLoop cs lg rt key fv fid nodes s).2.length) ∧
    (∀ (cs : Constants) (lg : String) (rt aps : List Contact)
       (searches : List Search) (s : Search) (fv : Bool),
      s.contactedNow
        ≤ (searchIteration cs lg rt aps searches s fv).1.contactedNow) ∧
    (∀ (cs : Constants) (lg : String) (rt aps : List Contact)
       (searches : List Search) (s : Search) (fv : Bool),
      s.contactedNow < cs.alpha →
      (searchIteration cs lg rt aps searches s fv).1.contactedNow ≤ cs.alpha ∧
      (searchIteration cs lg rt aps searches s fv).2.2.length
        ≤ cs.alpha - s.contactedNow) := by
  refine ⟨fun _ _ _ _ => rfl,
    fun cs lg rt key fv fid nodes s => sendLoop_delta cs lg rt key fv fid
      nodes s, ?_, ?_⟩
  · intro cs lg rt aps searches s fv
    have hd := searchIteration_delta cs lg rt aps searches s fv
    omega
  · intro cs lg rt aps searches s fv h
    have hd := searchIteration_delta cs lg rt aps searches s fv
    have hb := searchIteration_bound cs lg rt aps searches s fv h
    omega

/-- **C9, witness** for the amended theorem: the first iteration of the
concrete trace, entered with counter 0, stays within alpha. -/
theorem C9_alpha_amended_witness :
    (searchIteration c9cs "63" c9rt [] [c9s0] c9s0 false).1.contactedNow
        ≤ c9cs.alpha ∧
    (searchIteration c9cs "63" c9rt [] [c9s0] c9s0 false).2.2.length
        ≤ c9cs.alpha - c9s0.contactedNow :=
  C9_alpha_amended.2.2.2 c9cs "63" c9rt [] [c9s0] c9s0 false (by decide)

/-- **C10 (confirmed).** `_iterativeFind` appends the fresh `DHTSearch` to
`_searches` *before* the looking-for-yourself abort and the active-peer
shortcut; when either early return fires the search is still in the list
and `activeSearchExists(findID)` keeps answering `true` — no code path of
`_iterativeFind` removes it. -/
theorem C10_search_registered (cs : Constants) (st : DHTState) (key : String)
    (ssl : Option (List (List PyVal))) (hasCb : Bool) (fid : String) :
    (key = st.guid →
      iterativeFind cs st key ssl "findNode" hasCb fid
        = ({ st with searches := st.searches
              ++ [DHTSearch_init key "findNode" hasCb fid] },
           .lookingForYourself) ∧
      activeSearchExists
        (iterativeFind cs st key ssl "findNode" hasCb fid).1.searches fid
        = true) ∧
    (∀ c, key ≠ st.guid →
      List.find? (fun n => n.guid == key) st.activePeers = some c →
      iterativeFind cs st key ssl "findNode" hasCb fid
        = ({ st with searches := st.searches
              ++ [DHTSearch_init key "findNode" hasCb fid] },
           .foundActivePeer c) ∧
      activeSearchExists
        (iterativeFind cs st key ssl "findNode" hasCb fid).1.searches fid
        = true) := by
  constructor
  · intro hk
    have h1 : iterativeFind cs st key ssl "findNode" hasCb fid
        = ({ st with searches := st.searches
              ++ [DHTSearch_init key "findNode" hasCb fid] },
           .lookingForYourself) := by
      simp [iterativeFind, hk]
    refine ⟨h1, ?_⟩
    rw [h1]
    simp [activeSearchExists, DHTSearch_init]
  · intro c hk hfind
    have h1 : iterativeFind cs st key ssl "findNode" hasCb fid
        = ({ st with searches := st.searches
              ++ [DHTSearch_init key "findNode" hasCb fid] },
           .foundActivePeer c) := by
      simp [iterativeFind, hk, hfind]
    refine ⟨h1, ?_⟩
    rw [h1]
    simp [activeSearchExists, DHTSearch_init]

/-- **C10, witness**: a node looking up its own guid aborts with
`'You are looking for yourself'`, yet the search stays registered and
`activeSearchExists` still answers `true`. -/
theorem C10_search_registered_witness :
    iterativeFind ⟨20, 3, 86400, 3600⟩ ⟨"aa", [], [], []⟩ "aa" none
        "findNode" false "fid"
      = (⟨"aa", [DHTSearch_init "aa" "findNode" false "fid"], [], []⟩,
         .lookingForYourself) ∧
    activeSearchExists
      (iterativeFind ⟨20, 3, 86400, 3600⟩ ⟨"aa", [], [], []⟩ "aa" none
        "findNode" false "fid").1.searches "fid" = true :=
  (C10_search_registered ⟨20, 3, 86400, 3600⟩ ⟨"aa", [], [], []⟩ "aa" none
    false "fid").1 rfl

end OBDHT
